import Mathlib

/-!
Shallow embedding of the TimeGuard attendance application core.

The embedding covers:
* the mock backend service (localStorage-backed CRUD over Users and Logs),
* the location helpers (IP lookup with sentinel fallback),
* the check-in/out toggle of the App component, and
* session revalidation at application start.

localStorage is modelled by `Store`, with `none` standing for an absent key.
Simulated latency (`simulateDelay`) has no observable effect on the values
computed and is therefore dropped.  Clock reads (`Date.now()` / `new Date()`)
become explicit `Nat` parameters.  Fallible collaborator calls (`fetch`,
`navigator.geolocation`) become `Except` parameters.  Thrown errors become
`Except String` results carrying the thrown message.
-/

namespace TimeGuard

/-- `UserRole` from `types.ts`: `Admin | Employee`. -/
inductive UserRole where
  | Admin
  | Employee
  deriving DecidableEq, BEq

/-- The `User` record.  `password` is optional because `stripPassword`
removes it before a user value leaves the service boundary. -/
structure User where
  id : String
  name : String
  username : String
  password : Option String := none
  role : UserRole
  status : String
  lastCheckIn : Option Nat := none
  deriving DecidableEq

/-- `GeolocationData`: a latitude/longitude pair.  The numeric values are
never computed with, so an integer model of the coordinates suffices. -/
structure GeolocationData where
  latitude : Int
  longitude : Int
  deriving DecidableEq

/-- The `LogEntry` record. -/
structure LogEntry where
  id : String
  userId : String
  userName : String
  timestamp : Nat
  type : String
  ip : String
  location : Option GeolocationData := none
  locationError : Option String := none
  deriving DecidableEq

/-- `Omit<LogEntry, 'id'>`: the argument of `addLog`. -/
structure NewLogEntry where
  userId : String
  userName : String
  timestamp : Nat
  type : String
  ip : String
  location : Option GeolocationData := none
  locationError : Option String := none
  deriving DecidableEq

/-- localStorage restricted to the two keys the service uses
(`timeguard_users` and `timeguard_logs`); `none` models an absent key. -/
structure Store where
  usersKey : Option (List User)
  logsKey : Option (List LogEntry)
  deriving DecidableEq

/-- `JSON.parse(localStorage.getItem(USERS_KEY) || '[]')`. -/
def loadUsers (s : Store) : List User := s.usersKey.getD []

/-- `JSON.parse(localStorage.getItem(LOGS_KEY) || '[]')`. -/
def loadLogs (s : Store) : List LogEntry := s.logsKey.getD []

/-- `localStorage.setItem(USERS_KEY, JSON.stringify(users))`. -/
def saveUsers (s : Store) (users : List User) : Store := { s with usersKey := some users }

/-- `localStorage.setItem(LOGS_KEY, JSON.stringify(logs))`. -/
def saveLogs (s : Store) (logs : List LogEntry) : Store := { s with logsKey := some logs }

/-- The seed directory written on first run (`initialUsers` in the source). -/
def initialUsers : List User :=
  [ { id := "admin-1", name := "Admin User", username := "admin",
      password := some "admin", role := UserRole.Admin,
      status := "Checked Out", lastCheckIn := none },
    { id := "emp-1", name := "Alice", username := "alice",
      password := some "alice123", role := UserRole.Employee,
      status := "Checked Out", lastCheckIn := none },
    { id := "emp-2", name := "Bob", username := "bob",
      password := some "bob123", role := UserRole.Employee,
      status := "Checked Out", lastCheckIn := none },
    { id := "emp-3", name := "Charlie", username := "charlie",
      password := some "charlie123", role := UserRole.Employee,
      status := "Checked Out", lastCheckIn := none } ]

/-- `initializeData`: seeds each collection exactly when its key is absent. -/
def initData (s : Store) : Store :=
  let s1 :=
    match s.usersKey with
    | none => { s with usersKey := some initialUsers }
    | some _ => s
  match s1.logsKey with
  | none => { s1 with logsKey := some ([] : List LogEntry) }
  | some _ => s1

/-- `stripPassword`: removes the password property. -/
def stripPassword (u : User) : User := { u with password := none }

/-- `login`: finds the first user with the given username and compares the
stored password with the provided one (an absent password never matches). -/
def login (s : Store) (username pw : String) : Except String User × Store :=
  let users := loadUsers s
  match users.find? (fun u => u.username == username) with
  | some u =>
    if u.password == some pw then (Except.ok (stripPassword u), s)
    else (Except.error "Invalid username or password.", s)
  | none => (Except.error "Invalid username or password.", s)

/-- `getUsers`: all users, passwords stripped. -/
def getUsers (s : Store) : List User × Store :=
  ((loadUsers s).map stripPassword, s)

/-- `getLogs`: all logs; the timestamp re-wrapping `new Date(log.timestamp)`
is the identity in this model. -/
def getLogs (s : Store) : List LogEntry × Store :=
  ((loadLogs s).map (fun log => { log with timestamp := log.timestamp }), s)

/-- `addUser`: rejects an existing username, otherwise pushes and persists. -/
def addUser (s : Store) (newUser : User) : Except String User × Store :=
  let users := loadUsers s
  if users.any (fun u => u.username == newUser.username) then
    (Except.error "Username already exists.", s)
  else
    (Except.ok (stripPassword newUser), saveUsers s (users ++ [newUser]))

/-- JS truthiness of the optional password field: `undefined` and the empty
string are falsy. -/
def truthyString : Option String → Bool
  | none => false
  | some str => str != ""

/-- The per-record merge done by `updateUser` on an id match: every field of
the patch replaces the stored field, except that the stored password is kept
when the patch password is falsy. -/
def mergeUser (u updatedUser : User) : User :=
  let password := if truthyString updatedUser.password then updatedUser.password else u.password
  { updatedUser with password := password }

/-- `updateUser`: maps the merge over the collection, fails when no id
matches, persists and returns the (stripped) stored record found by id. -/
def updateUser (s : Store) (updatedUser : User) : Except String User × Store :=
  let users := loadUsers s
  let userFound := users.any (fun u => u.id == updatedUser.id)
  let users2 := users.map (fun u => if u.id == updatedUser.id then mergeUser u updatedUser else u)
  if userFound then
    match users2.find? (fun u => u.id == updatedUser.id) with
    | some u => (Except.ok (stripPassword u), saveUsers s users2)
    | none => (Except.error "User not found.", s)
  else (Except.error "User not found.", s)

/-- `deleteUser`: filters the id out and persists (no error when absent). -/
def deleteUser (s : Store) (userId : String) : Store :=
  saveUsers s ((loadUsers s).filter (fun u => u.id != userId))

/-- The synthetic identifier generated by `addLog`.
Embeds the string interpolation of the millisecond clock value. -/
def logId (now : Nat) : String := "log-" ++ Nat.repr now

/-- Completes a `NewLogEntry` with an identifier. -/
def withId (newLog : NewLogEntry) (idStr : String) : LogEntry :=
  { id := idStr, userId := newLog.userId, userName := newLog.userName,
    timestamp := newLog.timestamp, type := newLog.type, ip := newLog.ip,
    location := newLog.location, locationError := newLog.locationError }

/-- `addLog`: assigns the clock-derived id, prepends (`unshift`) the entry,
persists, and returns the stored entry.  `now` is the value of `Date.now()`
observed inside the call. -/
def addLog (s : Store) (newLog : NewLogEntry) (now : Nat) : LogEntry × Store :=
  let logs := loadLogs s
  let logWithId := withId newLog (logId now)
  (logWithId, saveLogs s (logWithId :: logs))

/-- A sequence of `addLog` calls; each call carries the clock value it
observes. -/
def runAddLogs (s : Store) (calls : List (NewLogEntry × Nat)) : Store :=
  calls.foldl (fun st c => (addLog st c.1 c.2).2) s

/-- `getIpAddress` from the location service: the fetched address, or the
sentinel `"Unavailable"` when the fetch fails in any way.  The argument is
the outcome of the external `fetch` call. -/
def getIpAddress (fetchResult : Except String String) : String :=
  match fetchResult with
  | Except.ok ip => ip
  | Except.error _ => "Unavailable"

/-- Line 189 of the App component: the new status is `Checked Out` exactly
when the current status is the string `Checked In`, else `Checked In`. -/
def nextStatus (status : String) : String :=
  if status == "Checked In" then "Checked Out" else "Checked In"

/-- Line 190: the log event kind derived from the new status. -/
def logTypeFor (newStatus : String) : String :=
  if newStatus == "Checked In" then "in" else "out"

/-- The `success`/`message` pair returned by `handleCheckIn`. -/
structure ToggleResult where
  success : Bool
  message : String
  deriving DecidableEq

/-- The observable outcome of one `handleCheckIn` call: the returned result,
the republished session identity (`setLoggedInUser` + session storage, `none`
when not republished), the log entry handed to the UI, and the store. -/
structure ToggleOutcome where
  result : ToggleResult
  savedUser : Option User
  createdLog : Option LogEntry
  store : Store
  deriving DecidableEq

/-- The `location` seen after the inner try/catch around `getGeolocation`:
the coordinates on success, `null` on failure. -/
def geoLoc : Except String GeolocationData → Option GeolocationData
  | Except.ok g => some g
  | Except.error _ => none

/-- The `locationError` seen after that try/catch: the failure message when
geolocation failed, absent otherwise. -/
def geoErr : Except String GeolocationData → Option String
  | Except.ok _ => none
  | Except.error e => some e

/-- The `newLog` object built at lines 192-200 of the App component. -/
def checkInLog (lu : User) (ip : String) (location : Option GeolocationData)
    (locationError : Option String) (tsLog : Nat) : NewLogEntry :=
  { userId := lu.id, userName := lu.name, timestamp := tsLog,
    type := logTypeFor (nextStatus lu.status), ip := ip,
    location := location, locationError := locationError }

/-- The `updatedUser` object built at line 204: new status, and `lastCheckIn`
refreshed exactly when the new status is `Checked In`. -/
def toggledUser (lu : User) (tsUser : Nat) : User :=
  { lu with
    status := nextStatus lu.status,
    lastCheckIn :=
      if nextStatus lu.status == "Checked In" then some tsUser else lu.lastCheckIn }

/-- `handleCheckIn` from the App component.  `isProcessing` and
`loggedInUser` are the component state consulted by the guard; `ipFetch` and
`geo` are the collaborator outcomes; `tsLog`, `tsId` and `tsUser` are the
three clock reads (the log timestamp at line 195, `Date.now()` inside
`addLog`, and `new Date()` for `lastCheckIn` at line 204). -/
def handleCheckIn (isProcessing : Bool) (loggedInUser : Option User)
    (ipFetch : Except String String) (geo : Except String GeolocationData)
    (tsLog tsId tsUser : Nat) (s : Store) : ToggleOutcome :=
  match loggedInUser with
  | none =>
    { result := { success := false,
                  message := "Another operation is in progress or user not logged in." },
      savedUser := none, createdLog := none, store := s }
  | some lu =>
    if isProcessing then
      { result := { success := false,
                    message := "Another operation is in progress or user not logged in." },
        savedUser := none, createdLog := none, store := s }
    else
      let ip := getIpAddress ipFetch
      let newLog := checkInLog lu ip (geoLoc geo) (geoErr geo) tsLog
      let res := addLog s newLog tsId
      let updatedUser := toggledUser lu tsUser
      match updateUser res.2 updatedUser with
      | (Except.ok savedUser, s2) =>
        { result := { success := true,
                      message := "Successfully Checked " ++ logTypeFor (nextStatus lu.status) ++ "!" },
          savedUser := some savedUser, createdLog := some res.1, store := s2 }
      | (Except.error _, s2) =>
        { result := { success := false, message := "Check-in process failed. Please try again." },
          savedUser := none, createdLog := some res.1, store := s2 }

/-- The session branch of `loadData` in the App component: given the stored
session identity and the freshly loaded user list, returns the active session
and the session storage content afterwards. -/
def revalidateSession (sessionUser : Option User) (loadedUsers : List User) :
    Option User × Option User :=
  match sessionUser with
  | none => (none, none)
  | some parsedUser =>
    if loadedUsers.any (fun u => u.id == parsedUser.id) then (some parsedUser, some parsedUser)
    else (none, none)

/-- `loadData`: loads users through the API and revalidates the stored
session against them. -/
def loadData (s : Store) (sessionUser : Option User) : Option User × Option User :=
  revalidateSession sessionUser (getUsers s).1

/-- The decimal digit characters of `n`, most significant first: a fuel-free
description of what `Nat.toDigitsCore` computes, used to reason about the
clock-derived log identifiers. -/
def natChars (n : Nat) : List Char :=
  if h : n < 10 then [Nat.digitChar n]
  else natChars (n / 10) ++ [Nat.digitChar (n % 10)]
decreasing_by
  exact Nat.div_lt_self (by omega) (by omega)

/-- A store with both keys absent: the state on first use. -/
def emptyStore : Store := { usersKey := none, logsKey := none }

/-- The store right after the bootstrap on first use. -/
def seedStore : Store := initData emptyStore

/-- The seeded employee `alice`, used as a concrete evaluation point. -/
def aliceSeed : User :=
  { id := "emp-1", name := "Alice", username := "alice",
    password := some "alice123", role := UserRole.Employee,
    status := "Checked Out", lastCheckIn := none }

/-- The session identity obtained by logging in as `alice`. -/
def aliceSession : User := stripPassword aliceSeed

/-- A concrete log input used as an evaluation point. -/
def sampleNewLog : NewLogEntry :=
  { userId := "emp-1", userName := "Alice", timestamp := 5,
    type := "in", ip := "203.0.113.7" }

/-- A concrete sequence of two `addLog` calls with increasing clock values. -/
def sampleCalls : List (NewLogEntry × Nat) :=
  [(sampleNewLog, 100), ({ sampleNewLog with timestamp := 9, type := "out" }, 700)]

/-- A candidate user whose username collides with the seeded `alice`. -/
def candAlice : User :=
  { id := "emp-9", name := "Alia", username := "alice",
    password := some "secret", role := UserRole.Employee,
    status := "Checked Out", lastCheckIn := none }

/-- A fresh user whose username does not occur in the seed directory. -/
def candDave : User :=
  { id := "emp-4", name := "Dave", username := "dave",
    password := some "dave123", role := UserRole.Employee,
    status := "Checked Out", lastCheckIn := none }

/-- A patch for the seeded `alice` with a blank password field. -/
def patchAlice : User :=
  { id := "emp-1", name := "Alicia", username := "alice",
    password := none, role := UserRole.Employee,
    status := "Checked In", lastCheckIn := some 42 }

/- ### Basic facts about the store and record helpers -/

@[simp] lemma loadUsers_saveUsers (s : Store) (us : List User) :
    loadUsers (saveUsers s us) = us := rfl

@[simp] lemma loadUsers_saveLogs (s : Store) (ls : List LogEntry) :
    loadUsers (saveLogs s ls) = loadUsers s := rfl

@[simp] lemma loadLogs_saveLogs (s : Store) (ls : List LogEntry) :
    loadLogs (saveLogs s ls) = ls := rfl

@[simp] lemma loadLogs_saveUsers (s : Store) (us : List User) :
    loadLogs (saveUsers s us) = loadLogs s := rfl

@[simp] lemma stripPassword_password (u : User) : (stripPassword u).password = none := rfl

@[simp] lemma stripPassword_id (u : User) : (stripPassword u).id = u.id := rfl

@[simp] lemma stripPassword_username (u : User) : (stripPassword u).username = u.username := rfl

@[simp] lemma stripPassword_status (u : User) : (stripPassword u).status = u.status := rfl

@[simp] lemma stripPassword_lastCheckIn (u : User) :
    (stripPassword u).lastCheckIn = u.lastCheckIn := rfl

@[simp] lemma mergeUser_id (u p : User) : (mergeUser u p).id = p.id := rfl

@[simp] lemma mergeUser_status (u p : User) : (mergeUser u p).status = p.status := rfl

@[simp] lemma mergeUser_lastCheckIn (u p : User) :
    (mergeUser u p).lastCheckIn = p.lastCheckIn := rfl

/-- Stripping cancels the only field on which the merge can differ from the
patch, so the record returned by a successful `updateUser` is the stripped
patch. -/
lemma stripPassword_mergeUser (u p : User) :
    stripPassword (mergeUser u p) = stripPassword p := rfl

/- ### Injectivity of the clock-derived log identifier -/

lemma natChars_lt {n : Nat} (h : n < 10) : natChars n = [Nat.digitChar n] := by
  rw [natChars]; simp [h]

lemma natChars_ge {n : Nat} (h : ¬ n < 10) :
    natChars n = natChars (n / 10) ++ [Nat.digitChar (n % 10)] := by
  rw [natChars]; simp [h]

lemma natChars_ne_nil (n : Nat) : natChars n ≠ [] := by
  by_cases h : n < 10
  · rw [natChars_lt h]; simp
  · rw [natChars_ge h]; simp

lemma toDigitsCore_eq_natChars :
    ∀ (f n : Nat) (acc : List Char), n < f →
      Nat.toDigitsCore 10 f n acc = natChars n ++ acc := by
  intro f
  induction f with
  | zero => intro n acc h; omega
  | succ f ih =>
    intro n acc h
    by_cases h10 : n / 10 = 0
    · have hn : n < 10 := by omega
      have hm : n % 10 = n := Nat.mod_eq_of_lt hn
      simp [Nat.toDigitsCore, h10, natChars_lt hn, hm]
    · have hn : ¬ n < 10 := by
        intro hc
        exact h10 (Nat.div_eq_of_lt hc)
      have hlt : n / 10 < f := by
        have hx : n / 10 < n := Nat.div_lt_self (by omega) (by omega)
        omega
      simp only [Nat.toDigitsCore, h10, if_false]
      rw [ih (n / 10) _ hlt, natChars_ge hn]
      simp

lemma digitChar_inj {a b : Nat} (ha : a < 10) (hb : b < 10)
    (h : Nat.digitChar a = Nat.digitChar b) : a = b := by
  interval_cases a <;> interval_cases b <;> revert h <;> decide

lemma natChars_injective : ∀ a b : Nat, natChars a = natChars b → a = b := by
  intro a
  induction a using Nat.strong_induction_on with
  | _ a ih =>
    intro b h
    by_cases ha : a < 10 <;> by_cases hb : b < 10
    · rw [natChars_lt ha, natChars_lt hb] at h
      simp at h
      exact digitChar_inj ha hb h
    · rw [natChars_lt ha, natChars_ge hb] at h
      have hlen := congrArg List.length h
      simp at hlen
      exact absurd hlen (natChars_ne_nil _)
    · rw [natChars_ge ha, natChars_lt hb] at h
      have hlen := congrArg List.length h
      simp at hlen
      exact absurd hlen (natChars_ne_nil _)
    · rw [natChars_ge ha, natChars_ge hb] at h
      obtain ⟨h1, h2⟩ := List.append_inj' h (by simp)
      have hdiv : a / 10 = b / 10 :=
        ih (a / 10) (Nat.div_lt_self (by omega) (by omega)) (b / 10) h1
      simp at h2
      have hmod : a % 10 = b % 10 :=
        digitChar_inj (Nat.mod_lt _ (by omega)) (Nat.mod_lt _ (by omega)) h2
      have hda := Nat.div_add_mod a 10
      have hdb := Nat.div_add_mod b 10
      omega

lemma natRepr_injective {a b : Nat} (h : Nat.repr a = Nat.repr b) : a = b := by
  have h2 : (Nat.toDigits 10 a).asString = (Nat.toDigits 10 b).asString := h
  rw [List.asString_inj] at h2
  unfold Nat.toDigits at h2
  rw [toDigitsCore_eq_natChars _ _ _ (Nat.lt_succ_self a),
      toDigitsCore_eq_natChars _ _ _ (Nat.lt_succ_self b)] at h2
  simp at h2
  exact natChars_injective _ _ h2

lemma logId_injective {a b : Nat} (h : logId a = logId b) : a = b := by
  unfold logId at h
  have hd := congrArg String.data h
  simp only [String.data_append] at hd
  have hcancel := List.append_cancel_left hd
  exact natRepr_injective (String.ext hcancel)

/- ### The update path of `updateUser` -/

@[simp] lemma toggledUser_id (lu : User) (t : Nat) : (toggledUser lu t).id = lu.id := rfl

@[simp] lemma toggledUser_status (lu : User) (t : Nat) :
    (toggledUser lu t).status = nextStatus lu.status := rfl

@[simp] lemma toggledUser_lastCheckIn (lu : User) (t : Nat) :
    (toggledUser lu t).lastCheckIn =
      if nextStatus lu.status == "Checked In" then some t else lu.lastCheckIn := rfl

/-- Searching the merged collection by the patch id finds exactly the merged
image of the record the search found before the merge. -/
lemma find?_map_merge (users : List User) (p : User) :
    (users.map (fun u => if u.id == p.id then mergeUser u p else u)).find?
        (fun u => u.id == p.id)
      = (users.find? (fun u => u.id == p.id)).map (fun u0 => mergeUser u0 p) := by
  induction users with
  | nil => rfl
  | cons u us ih =>
    simp only [List.map_cons]
    by_cases h : (u.id == p.id) = true
    · have h2 : ((mergeUser u p).id == p.id) = true := by simp
      rw [if_pos h, List.find?_cons, List.find?_cons, h2, h]
      rfl
    · have hf : (u.id == p.id) = false := by
        rwa [Bool.not_eq_true] at h
      rw [if_neg h, List.find?_cons, List.find?_cons, hf]
      exact ih

/-- The merge preserves which ids occur in the collection, as far as the
patch id is concerned. -/
lemma any_map_merge (users : List User) (p : User) :
    (users.map (fun u => if u.id == p.id then mergeUser u p else u)).any
        (fun u => u.id == p.id)
      = users.any (fun u => u.id == p.id) := by
  induction users with
  | nil => rfl
  | cons u us ih =>
    simp only [List.map_cons, List.any_cons]
    by_cases h : (u.id == p.id) = true
    · have h2 : ((mergeUser u p).id == p.id) = true := by simp
      rw [if_pos h, h2, h]
      rw [Bool.true_or, Bool.true_or]
    · have hf : (u.id == p.id) = false := by
        rwa [Bool.not_eq_true] at h
      rw [if_neg h, hf, ih]

/-- When some stored record carries the patch id, `updateUser` succeeds: it
persists the merged collection and returns the stripped patch. -/
lemma updateUser_found (s : Store) (p : User)
    (h : (loadUsers s).any (fun u => u.id == p.id) = true) :
    updateUser s p =
      (Except.ok (stripPassword p),
       saveUsers s ((loadUsers s).map (fun u => if u.id == p.id then mergeUser u p else u))) := by
  obtain ⟨u0, hu0⟩ : ∃ u0, (loadUsers s).find? (fun u => u.id == p.id) = some u0 := by
    cases hf : (loadUsers s).find? (fun u => u.id == p.id) with
    | some u0 => exact ⟨u0, rfl⟩
    | none =>
      rw [List.find?_eq_none] at hf
      rw [List.any_eq_true] at h
      obtain ⟨x, hx, hpx⟩ := h
      exact absurd hpx (hf x hx)
  unfold updateUser
  simp only [h, if_true, find?_map_merge, hu0, Option.map_some']
  rw [stripPassword_mergeUser]

/-- The body of `login`, with the intermediate binding expanded. -/
lemma login_eq (s : Store) (username pw : String) :
    login s username pw =
      match (loadUsers s).find? (fun u => u.username == username) with
      | some u =>
        if u.password == some pw then (Except.ok (stripPassword u), s)
        else (Except.error "Invalid username or password.", s)
      | none => (Except.error "Invalid username or password.", s) := rfl

/- ### Claims -/

/-- C3: `addUser` fails with the duplicate-username error exactly when some
stored user already carries the candidate username (case-sensitive exact
comparison); that failure leaves the store unchanged; otherwise the
candidate is appended, persisted, and returned sanitized. -/
theorem claim_C3 (s : Store) (cand : User) :
    ((∃ u ∈ loadUsers s, u.username = cand.username) ↔
      (addUser s cand).1 = Except.error "Username already exists.") ∧
    ((addUser s cand).1 = Except.error "Username already exists." →
      (addUser s cand).2 = s) ∧
    ((¬ ∃ u ∈ loadUsers s, u.username = cand.username) →
      addUser s cand = (Except.ok (stripPassword cand), saveUsers s (loadUsers s ++ [cand]))) := by
  by_cases h : ((loadUsers s).any (fun u => u.username == cand.username)) = true
  · have heq : addUser s cand = (Except.error "Username already exists.", s) := by
      unfold addUser; rw [if_pos h]
    have hex : ∃ u ∈ loadUsers s, u.username = cand.username := by
      rw [List.any_eq_true] at h
      obtain ⟨x, hx, hb⟩ := h
      exact ⟨x, hx, by simpa using hb⟩
    rw [heq]
    exact ⟨⟨fun _ => rfl, fun _ => hex⟩, fun _ => rfl, fun hn => absurd hex hn⟩
  · have heq : addUser s cand =
        (Except.ok (stripPassword cand), saveUsers s (loadUsers s ++ [cand])) := by
      unfold addUser; rw [if_neg h]
    have hnex : ¬ ∃ u ∈ loadUsers s, u.username = cand.username := by
      rintro ⟨x, hx, he⟩
      exact h (List.any_eq_true.mpr ⟨x, hx, by simpa using he⟩)
    rw [heq]
    refine ⟨⟨fun hex => absurd hex hnex, fun hc => ?_⟩, fun hc => ?_, fun _ => rfl⟩
    · simp at hc
    · simp at hc

/-- C3 witness: adding a second `alice` to the seeded store fails with the
duplicate error and leaves the store as it was. -/
theorem claim_C3_witness :
    (addUser seedStore candAlice).1 = Except.error "Username already exists." ∧
    (addUser seedStore candAlice).2 = seedStore := by
  have hdup := (claim_C3 seedStore candAlice).1.mp ⟨aliceSeed, by decide, by decide⟩
  exact ⟨hdup, (claim_C3 seedStore candAlice).2.1 hdup⟩

/-- C6: `login` fails with the invalid-credentials error exactly when no
stored username matches or the first match has a different stored password;
on success it returns the first match sanitized; the store is unchanged in
both cases. -/
theorem claim_C6 (s : Store) (username pw : String) :
    ((login s username pw).1 = Except.error "Invalid username or password." ↔
      ((∀ u ∈ loadUsers s, ¬ u.username = username) ∨
       (∃ u0, (loadUsers s).find? (fun u => u.username == username) = some u0 ∧
          ¬ u0.password = some pw))) ∧
    (∀ u0, (loadUsers s).find? (fun u => u.username == username) = some u0 →
      u0.password = some pw →
      (login s username pw).1 = Except.ok (stripPassword u0)) ∧
    (login s username pw).2 = s := by
  cases hf : (loadUsers s).find? (fun u => u.username == username) with
  | none =>
    rw [login_eq, hf]
    refine ⟨⟨fun _ => ?_, fun _ => rfl⟩, fun u0 h0 => ?_, rfl⟩
    · left
      intro u hu he
      have := List.find?_eq_none.mp hf u hu
      simp [he] at this
    · cases h0
  | some u0 =>
    have hmem := List.mem_of_find?_eq_some hf
    have huser : u0.username = username := by
      have := List.find?_some hf
      simpa using this
    rw [login_eq, hf]
    dsimp only
    by_cases hp : (u0.password == some pw) = true
    · have hpw : u0.password = some pw := by simpa using hp
      rw [if_pos hp]
      refine ⟨⟨fun hc => ?_, fun hr => ?_⟩, fun u1 h1 _ => ?_, rfl⟩
      · simp at hc
      · rcases hr with hall | ⟨u1, h1, hne⟩
        · exact absurd huser (hall u0 hmem)
        · injection h1 with h1
          subst h1
          exact absurd hpw hne
      · injection h1 with h1
        subst h1
        rfl
    · have hpw : ¬ u0.password = some pw := by simpa using hp
      rw [if_neg hp]
      refine ⟨⟨fun _ => Or.inr ⟨u0, rfl, hpw⟩, fun _ => rfl⟩, fun u1 h1 hq => ?_, rfl⟩
      injection h1 with h1
      subst h1
      exact absurd hq hpw

/-- C6 witness: logging in as `alice` with a wrong password fails with the
invalid-credentials error, and the correct password succeeds. -/
theorem claim_C6_witness :
    (login seedStore "alice" "wrong").1 = Except.error "Invalid username or password." ∧
    (login seedStore "alice" "alice123").1 = Except.ok (stripPassword aliceSeed) ∧
    (login seedStore "alice" "wrong").2 = seedStore := by
  refine ⟨?_, ?_, (claim_C6 seedStore "alice" "wrong").2.2⟩
  · exact (claim_C6 seedStore "alice" "wrong").1.mpr
      (Or.inr ⟨aliceSeed, by rfl, by decide⟩)
  · exact (claim_C6 seedStore "alice" "alice123").2.1 aliceSeed (by rfl) (by decide)

/-- C5: every user value returned by a succeeding `login`, `getUsers`,
`addUser` or `updateUser` has no password. -/
theorem claim_C5 (s : Store) (username pw : String) (cand patch : User) :
    (∀ u, (login s username pw).1 = Except.ok u → u.password = none) ∧
    (∀ u ∈ (getUsers s).1, u.password = none) ∧
    (∀ u, (addUser s cand).1 = Except.ok u → u.password = none) ∧
    (∀ u, (updateUser s patch).1 = Except.ok u → u.password = none) := by
  refine ⟨?_, ?_, ?_, ?_⟩
  · intro u h
    rw [login_eq] at h
    cases hf : (loadUsers s).find? (fun v => v.username == username) with
    | none => rw [hf] at h; cases h
    | some u0 =>
      rw [hf] at h
      dsimp only at h
      by_cases hp : (u0.password == some pw) = true
      · rw [if_pos hp] at h
        injection h with h
        rw [← h]
        simp
      · rw [if_neg hp] at h
        cases h
  · intro u hu
    unfold getUsers at hu
    rcases List.mem_map.mp hu with ⟨u0, _, he⟩
    rw [← he]
    simp
  · intro u h
    unfold addUser at h
    by_cases hc : ((loadUsers s).any (fun v => v.username == cand.username)) = true
    · rw [if_pos hc] at h; cases h
    · rw [if_neg hc] at h
      injection h with h
      rw [← h]
      simp
  · intro u h
    unfold updateUser at h
    by_cases hc : ((loadUsers s).any (fun v => v.id == patch.id)) = true
    · rw [if_pos hc] at h
      cases hff : ((loadUsers s).map
          (fun v => if v.id == patch.id then mergeUser v patch else v)).find?
          (fun v => v.id == patch.id) with
      | none => rw [hff] at h; cases h
      | some u1 =>
        rw [hff] at h
        injection h with h
        rw [← h]
        simp
    · rw [if_neg hc] at h; cases h

/-- C5 witness: the records returned by a concrete login and a concrete
`getUsers` on the seeded store carry no password. -/
theorem claim_C5_witness :
    (stripPassword aliceSeed).password = none ∧ (stripPassword candDave).password = none := by
  constructor
  · exact (claim_C5 seedStore "alice" "alice123" candAlice patchAlice).1
      (stripPassword aliceSeed) (by rfl)
  · exact (claim_C5 seedStore "alice" "alice123" candDave patchAlice).2.2.1
      (stripPassword candDave) (by rfl)

/-- C7: on application start the stored session identity is restored exactly
when a user with its identifier is in the freshly loaded directory; when the
identifier is absent, the stored session is discarded. -/
theorem claim_C7 (s : Store) (su : User) :
    ((loadData s (some su)).1 = some su ↔ ∃ u ∈ (getUsers s).1, u.id = su.id) ∧
    ((¬ ∃ u ∈ (getUsers s).1, u.id = su.id) → loadData s (some su) = (none, none)) := by
  unfold loadData revalidateSession
  dsimp only
  by_cases h : (((getUsers s).1).any (fun u => u.id == su.id)) = true
  · have hex : ∃ u ∈ (getUsers s).1, u.id = su.id := by
      rw [List.any_eq_true] at h
      obtain ⟨x, hx, hb⟩ := h
      exact ⟨x, hx, by simpa using hb⟩
    rw [if_pos h]
    exact ⟨⟨fun _ => hex, fun _ => rfl⟩, fun hn => absurd hex hn⟩
  · have hnex : ¬ ∃ u ∈ (getUsers s).1, u.id = su.id := by
      rintro ⟨x, hx, he⟩
      exact h (List.any_eq_true.mpr ⟨x, hx, by simpa using he⟩)
    rw [if_neg h]
    refine ⟨⟨fun hc => ?_, fun hr => absurd hr hnex⟩, fun _ => rfl⟩
    simp at hc

/-- C7 witness: after `alice` is deleted, revalidating her stored session
discards it. -/
theorem claim_C7_witness :
    loadData (deleteUser seedStore "emp-1") (some aliceSession) = (none, none) :=
  (claim_C7 (deleteUser seedStore "emp-1") aliceSession).2 (by decide)

/-- C9: on first use (both collection keys absent) initialization seeds one
Admin and three Employees, all Checked Out with null `lastCheckIn`, plus an
empty log collection; it is idempotent and changes nothing when the keys are
present. -/
theorem claim_C9 (s s2 : Store) (hu : s.usersKey = none) (hl : s.logsKey = none) :
    (initData s).usersKey = some initialUsers ∧
    (initData s).logsKey = some [] ∧
    (initialUsers.filter (fun u => u.role == UserRole.Admin)).length = 1 ∧
    (initialUsers.filter (fun u => u.role == UserRole.Employee)).length = 3 ∧
    (∀ u ∈ initialUsers, u.status = "Checked Out" ∧ u.lastCheckIn = none) ∧
    initData (initData s2) = initData s2 ∧
    (∀ us ls, s2.usersKey = some us → s2.logsKey = some ls → initData s2 = s2) := by
  obtain ⟨ou, ol⟩ := s2
  refine ⟨?_, ?_, by decide, by decide, by decide, ?_, ?_⟩
  · simp [initData, hu, hl]
  · simp [initData, hu, hl]
  · cases ou <;> cases ol <;> rfl
  · intro us ls h1 h2
    cases ou with
    | none => exact absurd h1 (by simp)
    | some us0 =>
      cases ol with
      | none => exact absurd h2 (by simp)
      | some ls0 => rfl

/-- C9 witness: bootstrapping the genuinely empty store yields the seed
directory and the empty log collection. -/
theorem claim_C9_witness :
    (initData emptyStore).usersKey = some initialUsers ∧
    (initData emptyStore).logsKey = some [] :=
  ⟨(claim_C9 emptyStore emptyStore rfl rfl).1,
   (claim_C9 emptyStore emptyStore rfl rfl).2.1⟩

/-- C10: any status other than the exact string `Checked In` — including
values outside the two named states — transitions to `Checked In` with log
kind `in`; only the exact `Checked In` transitions to `Checked Out`; and the
log entry created by the toggle carries that derived kind. -/
theorem claim_C10 (status : String) :
    (¬ status = "Checked In" →
      nextStatus status = "Checked In" ∧ logTypeFor (nextStatus status) = "in") ∧
    (nextStatus "Checked In" = "Checked Out" ∧
      logTypeFor (nextStatus "Checked In") = "out") ∧
    (∀ (lu : User) (s : Store) (ipF : Except String String)
        (geo : Except String GeolocationData) (t1 t2 t3 : Nat),
      lu.status = status →
      ((handleCheckIn false (some lu) ipF geo t1 t2 t3 s).createdLog).map LogEntry.type
        = some (logTypeFor (nextStatus status))) := by
  refine ⟨?_, ⟨rfl, rfl⟩, ?_⟩
  · intro h
    constructor
    · simp [nextStatus, h]
    · simp [nextStatus, logTypeFor, h]
  · intro lu s ipF geo t1 t2 t3 hst
    subst hst
    simp only [handleCheckIn]
    rcases hu : updateUser
        (addLog s (checkInLog lu (getIpAddress ipF) (geoLoc geo) (geoErr geo) t1) t2).2
        (toggledUser lu t3) with ⟨r, s2⟩
    cases r <;> simp [addLog, withId, checkInLog]

/-- C10 witness: a status outside the two named states toggles to
`Checked In` with log kind `in`. -/
theorem claim_C10_witness :
    nextStatus "On Leave" = "Checked In" ∧ logTypeFor (nextStatus "On Leave") = "in" :=
  (claim_C10 "On Leave").1 (by decide)

/- ### The audit log after a sequence of appends -/

@[simp] lemma withId_id (n : NewLogEntry) (i : String) : (withId n i).id = i := rfl

/-- The timestamp re-wrapping done by `getLogs` is the identity. -/
lemma getLogs_fst (s : Store) : (getLogs s).1 = loadLogs s := by
  unfold getLogs
  have hid : ∀ l : LogEntry, ({ l with timestamp := l.timestamp } : LogEntry) = l :=
    fun l => rfl
  simp [hid]

/-- Each `addLog` call prepends its completed entry, so a sequence of calls
leaves the reversed sequence of completed entries in front of the old log. -/
lemma loadLogs_runAddLogs (calls : List (NewLogEntry × Nat)) (s : Store) :
    loadLogs (runAddLogs s calls)
      = (calls.map (fun c => withId c.1 (logId c.2))).reverse ++ loadLogs s := by
  induction calls generalizing s with
  | nil => simp [runAddLogs]
  | cons c cs ih =>
    have hstep : runAddLogs s (c :: cs) = runAddLogs (addLog s c.1 c.2).2 cs := rfl
    rw [hstep, ih]
    simp [addLog, List.reverse_cons, List.append_assoc]

/-- C2: starting from an empty log, N `appendLog` calls (with the strictly
increasing clock values that the sequential 500 ms-delayed calls observe)
leave exactly N entries, listed newest-first in reverse insertion order,
with pairwise distinct identifiers. -/
theorem claim_C2 (s : Store) (calls : List (NewLogEntry × Nat))
    (hempty : loadLogs s = [])
    (hmono : List.Pairwise (fun a b => a.2 < b.2) calls) :
    (getLogs (runAddLogs s calls)).1.length = calls.length ∧
    (getLogs (runAddLogs s calls)).1
      = (calls.map (fun c => withId c.1 (logId c.2))).reverse ∧
    ((getLogs (runAddLogs s calls)).1.map LogEntry.id).Nodup := by
  have hlist : (getLogs (runAddLogs s calls)).1
      = (calls.map (fun c => withId c.1 (logId c.2))).reverse := by
    rw [getLogs_fst, loadLogs_runAddLogs, hempty, List.append_nil]
  refine ⟨by rw [hlist]; simp, hlist, ?_⟩
  rw [hlist, List.map_reverse, List.nodup_reverse, List.map_map]
  have hids : ∀ c : NewLogEntry × Nat, (LogEntry.id ∘ fun c => withId c.1 (logId c.2)) c = logId c.2 :=
    fun c => rfl
  rw [List.map_congr_left (fun c _ => hids c)]
  exact List.Pairwise.map _
    (fun a b hab he => absurd (logId_injective he) (Nat.ne_of_lt hab)) hmono

/-- C2 witness: two concrete appends with increasing clock values give two
entries, newest first, with distinct identifiers. -/
theorem claim_C2_witness :
    (getLogs (runAddLogs seedStore sampleCalls)).1.length = sampleCalls.length ∧
    (getLogs (runAddLogs seedStore sampleCalls)).1
      = (sampleCalls.map (fun c => withId c.1 (logId c.2))).reverse ∧
    ((getLogs (runAddLogs seedStore sampleCalls)).1.map LogEntry.id).Nodup :=
  claim_C2 seedStore sampleCalls (by rfl) (by decide)

/-- C4: a patch addressed at a stored user keeps the stored password when
the patch password is empty or absent, replaces it with `Q` when the patch
password is a non-empty `Q`, and replaces every other field with the patch
field; the merged collection is what gets persisted. -/
theorem claim_C4 (s : Store) (patch u : User)
    (hmem : u ∈ loadUsers s) (hid : u.id = patch.id) :
    (updateUser s patch).2 =
      saveUsers s ((loadUsers s).map
        (fun v => if v.id == patch.id then mergeUser v patch else v)) ∧
    (updateUser s patch).1 = Except.ok (stripPassword patch) ∧
    ((patch.password = none ∨ patch.password = some "") →
      mergeUser u patch = { patch with password := u.password }) ∧
    (∀ q : String, patch.password = some q → ¬ q = "" → mergeUser u patch = patch) := by
  have hany : ((loadUsers s).any (fun v => v.id == patch.id)) = true :=
    List.any_eq_true.mpr ⟨u, hmem, by simp [hid]⟩
  rw [updateUser_found s patch hany]
  refine ⟨rfl, rfl, ?_, ?_⟩
  · rintro (hp | hp) <;> simp [mergeUser, truthyString, hp]
  · intro q hq hne
    have ht : truthyString patch.password = true := by simp [truthyString, hq, hne]
    simp only [mergeUser, ht, if_true]

/-- C4 witness: patching the seeded `alice` with a blank password keeps her
stored password; her other fields take the patch values. -/
theorem claim_C4_witness :
    mergeUser aliceSeed patchAlice = { patchAlice with password := aliceSeed.password } ∧
    (updateUser seedStore patchAlice).1 = Except.ok (stripPassword patchAlice) :=
  ⟨(claim_C4 seedStore patchAlice aliceSeed (by decide) (by decide)).2.2.1 (Or.inl rfl),
   (claim_C4 seedStore patchAlice aliceSeed (by decide) (by decide)).2.1⟩

/- ### The toggle path of `handleCheckIn` -/

/-- `updateUser` never touches the log collection. -/
lemma loadLogs_updateUser (s : Store) (p : User) :
    loadLogs (updateUser s p).2 = loadLogs s := by
  unfold updateUser
  dsimp only
  split
  · split <;> simp
  · rfl

/-- Whatever the collaborator outcomes and whether or not the user update
succeeds, the toggle hands the completed log entry to the UI and leaves it
prepended in the persisted log. -/
lemma handleCheckIn_log (lu : User) (s : Store) (ipF : Except String String)
    (geo : Except String GeolocationData) (t1 t2 t3 : Nat) :
    (handleCheckIn false (some lu) ipF geo t1 t2 t3 s).createdLog
      = some (withId (checkInLog lu (getIpAddress ipF) (geoLoc geo) (geoErr geo) t1) (logId t2)) ∧
    loadLogs (handleCheckIn false (some lu) ipF geo t1 t2 t3 s).store
      = withId (checkInLog lu (getIpAddress ipF) (geoLoc geo) (geoErr geo) t1) (logId t2)
          :: loadLogs s := by
  simp only [handleCheckIn]
  rcases hu : updateUser
      (addLog s (checkInLog lu (getIpAddress ipF) (geoLoc geo) (geoErr geo) t1) t2).2
      (toggledUser lu t3) with ⟨r, s2⟩
  have hs2 : loadLogs s2
      = loadLogs (addLog s (checkInLog lu (getIpAddress ipF) (geoLoc geo) (geoErr geo) t1) t2).2 := by
    have hcong := congrArg (fun pr => loadLogs pr.2) hu
    simpa using (hcong.symm.trans (loadLogs_updateUser _ _))
  cases r <;> simp [addLog, hs2]

/-- When the session user's id occurs in the stored directory, the toggle
succeeds and its whole outcome is determined: the republished session is the
stripped toggled user, the created entry is the completed check-in log, and
the store holds the prepended log plus the merged directory. -/
lemma handleCheckIn_ok (lu : User) (s : Store) (ipF : Except String String)
    (geo : Except String GeolocationData) (t1 t2 t3 : Nat)
    (hmem : ((loadUsers s).any (fun u => u.id == lu.id)) = true) :
    handleCheckIn false (some lu) ipF geo t1 t2 t3 s =
      { result := { success := true,
                    message := "Successfully Checked " ++ logTypeFor (nextStatus lu.status) ++ "!" },
        savedUser := some (stripPassword (toggledUser lu t3)),
        createdLog :=
          some (withId (checkInLog lu (getIpAddress ipF) (geoLoc geo) (geoErr geo) t1) (logId t2)),
        store :=
          saveUsers (addLog s (checkInLog lu (getIpAddress ipF) (geoLoc geo) (geoErr geo) t1) t2).2
            ((loadUsers s).map
              (fun v => if v.id == (toggledUser lu t3).id then mergeUser v (toggledUser lu t3) else v)) } := by
  simp only [handleCheckIn]
  have hmem2 : ((loadUsers
      (addLog s (checkInLog lu (getIpAddress ipF) (geoLoc geo) (geoErr geo) t1) t2).2).any
        (fun u => u.id == (toggledUser lu t3).id)) = true := by
    simpa [addLog] using hmem
  rw [updateUser_found _ _ hmem2]
  simp [addLog, stripPassword_mergeUser]

/-- After a successful toggle the (toggled) session id still occurs in the
stored directory, so a second toggle succeeds as well. -/
lemma any_id_after_toggle (lu : User) (s : Store) (ipF : Except String String)
    (geo : Except String GeolocationData) (t1 t2 t3 : Nat)
    (hmem : ((loadUsers s).any (fun u => u.id == lu.id)) = true) :
    ((loadUsers (handleCheckIn false (some lu) ipF geo t1 t2 t3 s).store).any
      (fun u => u.id == (stripPassword (toggledUser lu t3)).id)) = true := by
  rw [handleCheckIn_ok lu s ipF geo t1 t2 t3 hmem]
  have hpres := any_map_merge (loadUsers s) (toggledUser lu t3)
  simpa [addLog] using hpres.trans hmem

/-- C1: one successful toggle flips the status to its complement, setting
`lastCheckIn` to the transition time exactly when the transition enters
`Checked In` and leaving it unchanged otherwise; a second successful toggle
restores the original status. -/
theorem claim_C1 (lu : User) (s : Store)
    (ipF ipF2 : Except String String) (geo geo2 : Except String GeolocationData)
    (t1 t2 t3 u1 u2 u3 : Nat)
    (hS : lu.status = "Checked In" ∨ lu.status = "Checked Out")
    (hmem : ((loadUsers s).any (fun u => u.id == lu.id)) = true) :
    (handleCheckIn false (some lu) ipF geo t1 t2 t3 s).result.success = true ∧
    ((handleCheckIn false (some lu) ipF geo t1 t2 t3 s).savedUser).map User.status
      = some (nextStatus lu.status) ∧
    (lu.status = "Checked In" →
      ((handleCheckIn false (some lu) ipF geo t1 t2 t3 s).savedUser).map User.status
          = some "Checked Out" ∧
      ((handleCheckIn false (some lu) ipF geo t1 t2 t3 s).savedUser).map User.lastCheckIn
          = some lu.lastCheckIn) ∧
    (lu.status = "Checked Out" →
      ((handleCheckIn false (some lu) ipF geo t1 t2 t3 s).savedUser).map User.status
          = some "Checked In" ∧
      ((handleCheckIn false (some lu) ipF geo t1 t2 t3 s).savedUser).map User.lastCheckIn
          = some (some t3)) ∧
    ((handleCheckIn false (handleCheckIn false (some lu) ipF geo t1 t2 t3 s).savedUser
        ipF2 geo2 u1 u2 u3
        (handleCheckIn false (some lu) ipF geo t1 t2 t3 s).store).savedUser).map User.status
      = some lu.status := by
  have h1 := handleCheckIn_ok lu s ipF geo t1 t2 t3 hmem
  have hmem2 := any_id_after_toggle lu s ipF geo t1 t2 t3 hmem
  rw [h1] at hmem2 ⊢
  have h2 := handleCheckIn_ok (stripPassword (toggledUser lu t3)) _ ipF2 geo2 u1 u2 u3 hmem2
  rw [h2]
  refine ⟨rfl, by simp, ?_, ?_, ?_⟩
  · intro hst
    constructor <;> simp [nextStatus, toggledUser, hst]
  · intro hst
    constructor <;> simp [nextStatus, toggledUser, hst]
  · rcases hS with hst | hst <;> simp [nextStatus, toggledUser, hst]

/-- C1 witness: the seeded `alice` (Checked Out) toggles to Checked In with
`lastCheckIn` set to the transition time, and a second toggle restores
Checked Out. -/
theorem claim_C1_witness :
    ((handleCheckIn false (some aliceSession) (Except.error "x") (Except.error "denied")
        1 2 3 seedStore).savedUser).map User.status = some "Checked In" ∧
    ((handleCheckIn false (some aliceSession) (Except.error "x") (Except.error "denied")
        1 2 3 seedStore).savedUser).map User.lastCheckIn = some (some 3) ∧
    ((handleCheckIn false
        (handleCheckIn false (some aliceSession) (Except.error "x") (Except.error "denied")
          1 2 3 seedStore).savedUser
        (Except.ok "203.0.113.7") (Except.ok { latitude := 1, longitude := 2 }) 4 5 6
        (handleCheckIn false (some aliceSession) (Except.error "x") (Except.error "denied")
          1 2 3 seedStore).store).savedUser).map User.status = some "Checked Out" := by
  have h := claim_C1 aliceSession seedStore (Except.error "x") (Except.ok "203.0.113.7")
    (Except.error "denied") (Except.ok { latitude := 1, longitude := 2 })
    1 2 3 4 5 6 (Or.inr rfl) (by decide)
  exact ⟨(h.2.2.2.1 rfl).1, (h.2.2.2.1 rfl).2, h.2.2.2.2⟩

/-- C8: a failed IP lookup degrades to the sentinel string; a failed
geolocation records the failure reason with the location omitted; and the
log entry is appended no matter how geolocation went. -/
theorem claim_C8 (lu : User) (s : Store) (ipF : Except String String)
    (geo : Except String GeolocationData) (e : String) (t1 t2 t3 : Nat) :
    getIpAddress (Except.error e) = "Unavailable" ∧
    ((handleCheckIn false (some lu) ipF geo t1 t2 t3 s).createdLog).map LogEntry.ip
      = some (getIpAddress ipF) ∧
    (geo = Except.error e →
      ((handleCheckIn false (some lu) ipF geo t1 t2 t3 s).createdLog).map LogEntry.locationError
          = some (some e) ∧
      ((handleCheckIn false (some lu) ipF geo t1 t2 t3 s).createdLog).map LogEntry.location
          = some none) ∧
    loadLogs (handleCheckIn false (some lu) ipF geo t1 t2 t3 s).store
      = withId (checkInLog lu (getIpAddress ipF) (geoLoc geo) (geoErr geo) t1) (logId t2)
          :: loadLogs s := by
  obtain ⟨hcl, hst⟩ := handleCheckIn_log lu s ipF geo t1 t2 t3
  refine ⟨rfl, ?_, ?_, hst⟩
  · rw [hcl]
    simp [withId, checkInLog]
  · intro hg
    subst hg
    rw [hcl]
    constructor <;> simp [withId, checkInLog, geoErr, geoLoc]

/-- C8 witness: with both collaborators failing, the created entry carries
the sentinel IP, the recorded failure reason, and no location. -/
theorem claim_C8_witness :
    ((handleCheckIn false (some aliceSession) (Except.error "boom") (Except.error "denied")
        1 2 3 seedStore).createdLog).map LogEntry.locationError = some (some "denied") ∧
    ((handleCheckIn false (some aliceSession) (Except.error "boom") (Except.error "denied")
        1 2 3 seedStore).createdLog).map LogEntry.location = some none :=
  (claim_C8 aliceSession seedStore (Except.error "boom") (Except.error "denied")
    "denied" 1 2 3).2.2.1 rfl

end TimeGuard
